import Mathlib

/-!
Verification of the DRIFT-search primer
(`graphrag/query/structured_search/drift_search/primer.py`).

The Python code is shallowly embedded: the external collaborators
(language-model client, JSON decoder, tokenizer, dataframe rendering) are
modelled as an explicit environment of pure capabilities, fallible Python
code returns `Option`/`Except` (`none`/`.error` marks a raised exception),
and the `asyncio` fan-out/fan-in of `asearch` is modelled by an explicit
completion schedule that writes each task's result into its creation-index
slot.
-/

namespace DriftPrimer

/-- Modelled from the spec: `CommunityReport` (of `graphrag.model`, not in
the shown source) is an immutable record with at least `full_content`
text, a stable identifier and a rank used for prior ordering. -/
structure CommunityReport where
  id : String
  rank : Int
  full_content : String
deriving DecidableEq, Repr

/-- Modelled from the spec: a tokenizer encoding (`tiktoken.Encoding`),
opaque to this core; only its identity matters here. -/
structure Encoding where
  name : String
deriving DecidableEq, Repr

/-- Modelled from the spec: the external capabilities this core calls,
as pure functions.
* `generate`: the model's synchronous single-turn completion
  (`ChatOpenAI.generate`), keyed by the prompt content of the single user
  message.
* `agenerate`: the model's asynchronous completion in structured
  (JSON-object) response mode (`ChatOpenAI.agenerate`), again keyed by
  the prompt; the returned raw text is what the awaited call yields.
* `num_tokens`: the tokenizer capability
  `countTokens(text, optionalEncoding)` of
  `graphrag.query.llm.text_utils.num_tokens`; `none` as second argument is
  the default encoding.
* `json_loads`: `json.loads` returning `none` on a decode failure
  (`JSONDecodeError`), `some d` on success, where `D` is the type of
  parsed structured responses.
* `renderReports`: the string rendering `str(dataframe)` of a report
  table, used only for `context_text`. -/
structure LModel (D : Type) where
  generate : String → String
  agenerate : String → String
  num_tokens : String → Option Encoding → Nat
  json_loads : String → Option D
  renderReports : List CommunityReport → String

/-- The state of `PrimerQueryProcessor` as far as `expand_query` reads it:
the report corpus and the token encoder stored at construction.  (The
`chat_llm` and `text_embedder` members live in the `LModel` environment.) -/
structure PrimerQueryProcessor where
  reports : List CommunityReport
  token_encoder : Option Encoding

/-- The f-string prompt built by `PrimerQueryProcessor.expand_query`,
with `query` and `template` spliced in (source lines 66-69; the `\n\n`
escapes are followed by the literal newline and 18 spaces of indentation
of the triple-quoted string). -/
def expandPrompt (query template : String) : String :=
  "Create a hypothetical answer to the following query: " ++ query ++ "\n\n\n" ++
  "                  Format it to follow the structure of the template below:\n\n\n" ++
  "                  " ++ template ++ "\n\"\n" ++
  "                  Ensure that the hypothetical answer does not reference new named entities that are not present in the original query."

/-- `secrets.choice(l)`: an unbiased draw of one element of `l`, modelled
by an arbitrary draw index reduced modulo the length; on an empty
sequence it raises `IndexError`, modelled by `none`. -/
def secrets_choice (l : List α) (draw : Nat) : Option α :=
  l[draw % l.length]?

/-- `PrimerQueryProcessor.expand_query` (source lines 52-79).  `draw` is
the random draw consumed by `secrets.choice`; `none` models a raised
exception.  On success the pair is (expanded text, token count). -/
def PrimerQueryProcessor.expand_query {D : Type} (env : LModel D)
    (self : PrimerQueryProcessor) (draw : Nat) (query : String) :
    Option (String × Nat) :=
  match secrets_choice self.reports draw with
  | none => none
  | some rpt =>
    let prompt := expandPrompt query rpt.full_content
    let text := env.generate prompt
    let token_ct := env.num_tokens (text ++ query) none
    if text = "" then some (query, token_ct)
    else some (text, token_ct)

/-- The context block of one fold:
`"\n\n".join(reports["full_content"].tolist())` (source line 132). -/
def foldContext (reports : List CommunityReport) : String :=
  String.intercalate "\n\n" (reports.map (fun r => r.full_content))

/-- Modelled from the spec: `DRIFT_PRIMER_PROMPT.format(query=...,
community_reports=...)` — the fixed decomposition prompt template (of
`drift_search.system_prompt`, not in the shown source) rendered with the
query and the context block. -/
def DRIFT_PRIMER_PROMPT_format (query community_reports : String) : String :=
  "You are a helpful agent decomposing a query using community reports.\n\n" ++
  "Query: " ++ query ++ "\n\nCommunity Reports:\n\n" ++ community_reports

/-- `DRIFTPrimer.decompose_query` (source lines 118-145).  The fold is
the list of reports whose `full_content` column is joined; `.error`
models the uncaught `JSONDecodeError` of `json.loads`, carrying the
undecodable raw response.  On success the pair is
(parsed response, token count). -/
def DRIFTPrimer.decompose_query {D : Type} (env : LModel D)
    (token_encoder : Option Encoding) (query : String)
    (reports : List CommunityReport) : Except String (D × Nat) :=
  let community_reports := foldContext reports
  let prompt := DRIFT_PRIMER_PROMPT_format query community_reports
  let response := env.agenerate prompt
  match env.json_loads response with
  | none => .error response
  | some parsed => .ok (parsed, env.num_tokens (prompt ++ response) token_encoder)

/-- The slice of `DRIFTSearchConfig` that `DRIFTPrimer` reads. -/
structure DRIFTSearchConfig where
  primer_folds : Nat

/-- The state of `DRIFTPrimer` as far as `split_reports`, `decompose_query`
and `asearch` read it. -/
structure DRIFTPrimer where
  config : DRIFTSearchConfig
  token_encoder : Option Encoding

/-- `DRIFTPrimer.split_reports` (source lines 179-199).  The dataframe is
a list of reports; `reports.iloc[start:end]` is `drop start` then
`take (end - start)`; `self.config.primer_folds or 1` maps the falsy
fold count `0` to `1`. -/
def DRIFTPrimer.split_reports (self : DRIFTPrimer)
    (reports : List CommunityReport) : List (List CommunityReport) :=
  let num_reports := reports.length
  let primer_folds := if self.config.primer_folds = 0 then 1 else self.config.primer_folds
  (List.range primer_folds).map (fun i =>
    let start_idx := i * num_reports / primer_folds
    let end_idx := if i = primer_folds - 1 then num_reports
      else (i + 1) * num_reports / primer_folds
    (reports.drop start_idx).take (end_idx - start_idx))

/-- Fan-in of the gather barrier: each schedule entry `j` is the creation
index of the task that completes next, and its (pure) result `tasks[j]`
is written into slot `j`; entries out of range and repeats are harmless.
This models an index-tagged completion order of `asyncio.gather`. -/
def fillSlots (tasks : List α) : List Nat → List (Option α) → List (Option α)
  | [], slots => slots
  | j :: rest, slots =>
    fillSlots tasks rest
      (match tasks[j]? with
       | some t => slots.set j (some t)
       | none => slots)

/-- `asyncio.gather` over pure per-task results: run the tasks in the
completion order `sched`, then read the slots out in task-creation order.
`pending` fills a slot whose task never completed; a schedule in which
every task completes (`CompleteSched`) never produces it. -/
def gather (tasks : List α) (sched : List Nat) (pending : α) : List α :=
  (fillSlots tasks sched (List.replicate tasks.length none)).map (fun o => o.getD pending)

/-- A completion schedule under which each of the `n` launched tasks
completes at least once. -/
def CompleteSched (sched : List Nat) (n : Nat) : Prop :=
  ∀ i, i < n → i ∈ sched

instance (sched : List Nat) (n : Nat) : Decidable (CompleteSched sched n) :=
  Nat.decidableBallLT n (fun i _ => i ∈ sched)

/-- Exception propagation of the gather barrier: if any task raised, the
whole gather raises (one of the raised errors); otherwise all results are
returned. -/
def sequenceE : List (Except ε α) → Except ε (List α)
  | [] => .ok []
  | .error e :: _ => .error e
  | .ok a :: rest =>
    match sequenceE rest with
    | .error e => .error e
    | .ok l => .ok (a :: l)

/-- Modelled from the spec: the fields of `SearchResult` (of
`structured_search.base`, not in the shown source) that `asearch`
populates.  Wall-clock `completion_time` is real time and is not
modelled. -/
structure SearchResult (D : Type) where
  response : List D
  context_data : List CommunityReport
  context_text : String
  llm_calls : Nat
  prompt_tokens : Nat
deriving DecidableEq

/-- `DRIFTPrimer.asearch` (source lines 147-177).  One decomposition task
per fold is created in fold order; `sched` is the order in which the
in-flight tasks complete; the awaited gather reassembles results by
creation index and propagates any raised exception, modelled by
`sequenceE ∘ gather`. -/
def DRIFTPrimer.asearch {D : Type} (env : LModel D) (self : DRIFTPrimer)
    (query : String) (top_k_reports : List CommunityReport)
    (sched : List Nat) : Except String (SearchResult D) :=
  let report_folds := self.split_reports top_k_reports
  let tasks := report_folds.map (fun fold =>
    DRIFTPrimer.decompose_query env self.token_encoder query fold)
  match sequenceE (gather tasks sched (Except.error "pending")) with
  | .error e => .error e
  | .ok results_with_tokens =>
    .ok { response := results_with_tokens.map (fun rt => rt.fst)
          context_data := top_k_reports
          context_text := env.renderReports top_k_reports
          llm_calls := 2
          prompt_tokens := (results_with_tokens.map (fun rt => rt.snd)).sum }

deriving instance DecidableEq for Except

/-- A concrete report used to evaluate the development on closed inputs. -/
def sampleReport : CommunityReport :=
  { id := "r1", rank := 1, full_content := "TEMPLATE" }

/-- A concrete environment whose chat model returns the empty string on
single-turn completions, returns the parseable text `"7"` on structured
completions, and whose tokenizer counts one token per character. -/
def emptyGenEnv : LModel Nat :=
  { generate := fun _ => ""
    agenerate := fun _ => "7"
    num_tokens := fun s _ => s.length
    json_loads := fun _ => some 7
    renderReports := fun _ => "df" }

/-- A concrete environment whose structured completions never decode. -/
def badJsonEnv : LModel Nat :=
  { emptyGenEnv with json_loads := fun _ => none }

/-- The token count reported by one empty-fold decomposition call under
`emptyGenEnv` for the query `"q"`. -/
def sampleTok : Nat :=
  emptyGenEnv.num_tokens
    (DRIFT_PRIMER_PROMPT_format "q" ""
      ++ emptyGenEnv.agenerate (DRIFT_PRIMER_PROMPT_format "q" "")) none

theorem fillSlots_getElem? (tasks : List α) (sched : List Nat)
    (slots : List (Option α)) (j : Nat) :
    (fillSlots tasks sched slots)[j]? =
      if j ∈ sched ∧ j < tasks.length then
        if j < slots.length then some tasks[j]? else none
      else slots[j]? := by
  induction sched generalizing slots with
  | nil => simp [fillSlots]
  | cons i rest ih =>
    simp only [fillSlots]
    cases h : tasks[i]? with
    | none =>
      have hi : ¬i < tasks.length := by
        intro hlt
        rw [List.getElem?_eq_getElem hlt] at h
        cases h
      rw [ih]
      by_cases hj2 : j < tasks.length
      · have hji : ¬j = i := by rintro rfl; exact hi hj2
        simp [List.mem_cons, hji, hj2]
      · simp [hj2]
    | some t =>
      have hi : i < tasks.length := (List.getElem?_eq_some.mp h).1
      rw [ih]
      by_cases hj2 : j < tasks.length
      · by_cases hji : j = i
        · subst hji
          by_cases hj1 : j ∈ rest <;>
            simp [hj1, hj2, List.mem_cons, List.length_set, List.getElem?_set, h]
        · have hij : i ≠ j := fun e => hji e.symm
          simp [List.mem_cons, hji, hj2, List.length_set,
            List.getElem?_set_ne hij]
      · have hij : i ≠ j := fun e => hj2 (e ▸ hi)
        simp [hj2, List.getElem?_set_ne hij]

theorem gather_complete (tasks : List α) (sched : List Nat) (p : α)
    (hc : CompleteSched sched tasks.length) :
    gather tasks sched p = tasks := by
  apply List.ext_getElem?
  intro j
  rw [gather, List.getElem?_map, fillSlots_getElem?]
  by_cases hj : j < tasks.length
  · simp [hc j hj, hj, List.length_replicate, List.getElem?_eq_getElem hj]
  · rw [List.getElem?_eq_none (l := tasks) (by omega)]
    simp [hj, List.getElem?_replicate]

theorem sequenceE_map_ok (l : List α) :
    sequenceE (l.map (Except.ok : α → Except ε α)) = .ok l := by
  induction l with
  | nil => rfl
  | cons a rest ih => simp [sequenceE, ih]

theorem sequenceE_error_of_mem {l : List (Except ε α)} {e : ε}
    (h : Except.error e ∈ l) : ∃ e', sequenceE l = .error e' := by
  induction l with
  | nil => cases h
  | cons x rest ih =>
    cases x with
    | error e0 => exact ⟨e0, rfl⟩
    | ok a =>
      have h2 : Except.error e ∈ rest := by
        rcases List.mem_cons.mp h with h1 | h2
        · exact absurd h1 (by simp)
        · exact h2
      obtain ⟨e', he'⟩ := ih h2
      exact ⟨e', by simp [sequenceE, he']⟩

theorem slice_append (l : List α) {a b c : Nat} (hab : a ≤ b) (hbc : b ≤ c) :
    (l.drop a).take (b - a) ++ (l.drop b).take (c - b) = (l.drop a).take (c - a) := by
  have h1 : c - a = (b - a) + (c - b) := by omega
  rw [h1, List.take_add, List.drop_drop]
  have h2 : a + (b - a) = b := by omega
  rw [h2]

theorem join_slices (l : List α) (f : Nat → Nat)
    (hmono : ∀ i, f i ≤ f (i + 1)) :
    ∀ k, ((List.range k).map (fun i => (l.drop (f i)).take (f (i + 1) - f i))).flatten
      = (l.drop (f 0)).take (f k - f 0) := by
  have hmono' : ∀ i j, i ≤ j → f i ≤ f j := by
    intro i j hij
    induction j with
    | zero =>
      have h0 : i = 0 := by omega
      simp [h0]
    | succ j ihj =>
      rcases Nat.lt_or_ge i (j + 1) with h | h
      · exact le_trans (ihj (by omega)) (hmono j)
      · have he : i = j + 1 := by omega
        simp [he]
  intro k
  induction k with
  | zero => simp
  | succ k ih =>
    rw [List.range_succ, List.map_append, List.flatten_append, ih]
    simp only [List.map_cons, List.map_nil, List.flatten_cons, List.flatten_nil,
      List.append_nil]
    exact slice_append l (hmono' 0 k (by omega)) (hmono k)

theorem length_slice (l : List α) (s e : Nat) (he : e ≤ l.length) :
    ((l.drop s).take (e - s)).length = e - s := by
  simp only [List.length_take, List.length_drop]
  omega

theorem fold_end_le (n k i : Nat) (hik : i < k) : (i + 1) * n / k ≤ n := by
  have h1 : (i + 1) * n ≤ k * n := Nat.mul_le_mul_right n (by omega)
  calc (i + 1) * n / k ≤ k * n / k := Nat.div_le_div_right h1
    _ = n := Nat.mul_div_cancel_left n (by omega)

theorem div_slice_size (n k i : Nat) (hk : 0 < k) :
    (i + 1) * n / k - i * n / k = n / k ∨
    (i + 1) * n / k - i * n / k = n / k + 1 := by
  have h2 : (i + 1) * n = i * n + n := by ring
  have h : (i * n + n) / k = i * n / k + n / k + if k ≤ i * n % k + n % k then 1 else 0 :=
    Nat.add_div hk
  rw [h2, h]
  by_cases hif : k ≤ i * n % k + n % k
  · rw [if_pos hif]
    generalize i * n / k = A
    generalize n / k = B
    omega
  · rw [if_neg hif]
    generalize i * n / k = A
    generalize n / k = B
    omega

theorem split_reports_eq (k : Nat) (hk : 1 ≤ k) (enc : Option Encoding)
    (reports : List CommunityReport) :
    DRIFTPrimer.split_reports ⟨⟨k⟩, enc⟩ reports =
      (List.range k).map (fun i =>
        (reports.drop (i * reports.length / k)).take
          ((i + 1) * reports.length / k - i * reports.length / k)) := by
  have hk0 : ¬(k = 0) := by omega
  simp only [DRIFTPrimer.split_reports, hk0, if_false]
  apply List.map_congr_left
  intro i hi
  rw [List.mem_range] at hi
  by_cases hlast : i = k - 1
  · rw [if_pos hlast]
    rw [show (i + 1) * reports.length / k = reports.length from by
      rw [show i + 1 = k from by omega]
      exact Nat.mul_div_cancel_left _ (by omega)]
  · rw [if_neg hlast]

theorem split_reports_length (k : Nat) (hk : 1 ≤ k) (enc : Option Encoding)
    (reports : List CommunityReport) :
    (DRIFTPrimer.split_reports ⟨⟨k⟩, enc⟩ reports).length = k := by
  rw [split_reports_eq k hk]
  simp

theorem split_reports_getD (k : Nat) (hk : 1 ≤ k) (enc : Option Encoding)
    (reports : List CommunityReport) (i : Nat) (hi : i < k) :
    (DRIFTPrimer.split_reports ⟨⟨k⟩, enc⟩ reports).getD i []
      = (reports.drop (i * reports.length / k)).take
          ((i + 1) * reports.length / k - i * reports.length / k) := by
  rw [split_reports_eq k hk, List.getD_eq_getElem?_getD, List.getElem?_map,
    List.getElem?_range hi]
  rfl

theorem split_reports_flatten (k : Nat) (hk : 1 ≤ k) (enc : Option Encoding)
    (reports : List CommunityReport) :
    (DRIFTPrimer.split_reports ⟨⟨k⟩, enc⟩ reports).flatten = reports := by
  rw [split_reports_eq k hk]
  have hmono : ∀ i, i * reports.length / k ≤ (i + 1) * reports.length / k := fun i =>
    Nat.div_le_div_right (Nat.mul_le_mul_right _ (Nat.le_succ i))
  rw [join_slices reports (fun i => i * reports.length / k) hmono k]
  rw [show (0 : Nat) * reports.length / k = 0 from by simp]
  rw [show k * reports.length / k = reports.length from
    Nat.mul_div_cancel_left _ (by omega)]
  simp [List.take_length]

theorem split_reports_size_mem (k : Nat) (hk : 1 ≤ k) (enc : Option Encoding)
    (reports : List CommunityReport) (s : Nat)
    (hs : s ∈ (DRIFTPrimer.split_reports ⟨⟨k⟩, enc⟩ reports).map List.length) :
    reports.length / k ≤ s ∧ s ≤ reports.length / k + 1 := by
  rw [split_reports_eq k hk, List.map_map] at hs
  rcases List.mem_map.mp hs with ⟨i, hi, hlen⟩
  rw [List.mem_range] at hi
  simp only [Function.comp] at hlen
  rw [length_slice reports _ _ (fold_end_le reports.length k i hi)] at hlen
  rcases div_slice_size reports.length k i (by omega) with h | h <;> omega

theorem asearch_ok {D : Type} (env : LModel D) (self : DRIFTPrimer)
    (query : String) (reports : List CommunityReport) (sched : List Nat)
    (results : List (D × Nat))
    (hc : CompleteSched sched (self.split_reports reports).length)
    (hres : (self.split_reports reports).map
        (fun fold => DRIFTPrimer.decompose_query env self.token_encoder query fold)
      = results.map Except.ok) :
    DRIFTPrimer.asearch env self query reports sched
      = .ok { response := results.map Prod.fst
              context_data := reports
              context_text := env.renderReports reports
              llm_calls := 2
              prompt_tokens := (results.map Prod.snd).sum } := by
  have hlen : (self.split_reports reports).length = results.length := by
    have h := congrArg List.length hres
    simpa using h
  simp only [DRIFTPrimer.asearch]
  rw [hres]
  rw [gather_complete _ _ _ (by rw [List.length_map, ← hlen]; exact hc)]
  rw [sequenceE_map_ok]

theorem asearch_ok_pointwise {D : Type} (env : LModel D) (self : DRIFTPrimer)
    (query : String) (reports : List CommunityReport) (sched : List Nat)
    (resp : Nat → D) (tok : Nat → Nat)
    (hc : CompleteSched sched (self.split_reports reports).length)
    (hdec : ∀ i, i < (self.split_reports reports).length →
      DRIFTPrimer.decompose_query env self.token_encoder query
          ((self.split_reports reports).getD i [])
        = .ok (resp i, tok i)) :
    DRIFTPrimer.asearch env self query reports sched
      = .ok { response := (List.range (self.split_reports reports).length).map resp
              context_data := reports
              context_text := env.renderReports reports
              llm_calls := 2
              prompt_tokens :=
                ((List.range (self.split_reports reports).length).map tok).sum } := by
  have hres : (self.split_reports reports).map
      (fun fold => DRIFTPrimer.decompose_query env self.token_encoder query fold)
    = ((List.range (self.split_reports reports).length).map
        (fun i => (resp i, tok i))).map Except.ok := by
    apply List.ext_getElem?
    intro j
    rw [List.getElem?_map, List.getElem?_map, List.getElem?_map]
    by_cases hj : j < (self.split_reports reports).length
    · rw [List.getElem?_eq_getElem hj, List.getElem?_range hj]
      have hD : (self.split_reports reports).getD j []
          = (self.split_reports reports)[j] := by
        rw [List.getD_eq_getElem?_getD, List.getElem?_eq_getElem hj]
        rfl
      have h := hdec j hj
      rw [hD] at h
      simp [h]
    · rw [List.getElem?_eq_none (l := self.split_reports reports) (by omega),
        List.getElem?_eq_none (l := List.range (self.split_reports reports).length)
          (by simpa using hj)]
      rfl
  rw [asearch_ok env self query reports sched _ hc hres]
  simp only [List.map_map]
  rfl

/-- C1, counterexample: with the character-counting tokenizer and query
`"hi"`, the model's single-turn completion returns the empty string and
`expand_query` returns the original query with token count
`countTokens("" + "hi") = 2`, not the claimed
`countTokens("hi" + "hi") = 4`. -/
theorem expand_query_fallback_cex :
    emptyGenEnv.generate (expandPrompt "hi" "TEMPLATE") = "" ∧
    PrimerQueryProcessor.expand_query emptyGenEnv ⟨[sampleReport], none⟩ 0 "hi"
      = some ("hi", 2) ∧
    emptyGenEnv.num_tokens ("hi" ++ "hi") none = 4 ∧
    PrimerQueryProcessor.expand_query emptyGenEnv ⟨[sampleReport], none⟩ 0 "hi"
      ≠ some ("hi", emptyGenEnv.num_tokens ("hi" ++ "hi") none) := by
  decide

/-- C1 (amended): if the model's single-turn completion returns the empty
string, `expand_query` returns the original input query unchanged together
with a token count equal to `countTokens(modelOutput + originalQuery)
= countTokens(originalQuery)` — the query counted once — computed with the
default encoding. -/
theorem expand_query_empty_fallback {D : Type} (env : LModel D)
    (self : PrimerQueryProcessor) (draw : Nat) (query : String)
    (rpt : CommunityReport)
    (hdraw : secrets_choice self.reports draw = some rpt)
    (hempty : env.generate (expandPrompt query rpt.full_content) = "") :
    PrimerQueryProcessor.expand_query env self draw query
      = some (query, env.num_tokens query none) := by
  simp only [PrimerQueryProcessor.expand_query, hdraw]
  simp only [hempty]
  simp

/-- C1, witness: the amended fallback at the concrete environment. -/
theorem expand_query_empty_fallback_wit :
    PrimerQueryProcessor.expand_query emptyGenEnv ⟨[sampleReport], none⟩ 0 "hi"
      = some ("hi", emptyGenEnv.num_tokens "hi" none) :=
  expand_query_empty_fallback emptyGenEnv ⟨[sampleReport], none⟩ 0 "hi"
    sampleReport (by decide) (by decide)

/-- C8: a configured `primer_folds` of `0` (falsy) behaves identically to
`primer_folds = 1`, and one fold covers the whole corpus. -/
theorem split_reports_zero_folds (enc : Option Encoding)
    (reports : List CommunityReport) :
    DRIFTPrimer.split_reports ⟨⟨0⟩, enc⟩ reports
      = DRIFTPrimer.split_reports ⟨⟨1⟩, enc⟩ reports ∧
    DRIFTPrimer.split_reports ⟨⟨1⟩, enc⟩ reports = [reports] := by
  constructor
  · rfl
  · simp [DRIFTPrimer.split_reports, List.range_succ, List.take_length]

/-- C9: on an empty report corpus `expand_query` raises (the
`secrets.choice` template draw fails on an empty sequence) for every draw
and every environment, before any model output can matter. -/
theorem expand_query_empty_corpus {D : Type} (env : LModel D)
    (enc : Option Encoding) (draw : Nat) (query : String) :
    PrimerQueryProcessor.expand_query env ⟨[], enc⟩ draw query = none := by
  simp [PrimerQueryProcessor.expand_query, secrets_choice]

/-- C10: `expand_query` counts tokens with the default encoding (`none`),
ignoring the `token_encoder` stored at construction — its result is
invariant under that field and its token count is
`countTokens(modelOutput + query, default)` — whereas `decompose_query`
passes its configured `token_encoder` to the token counter. -/
theorem token_encoder_usage {D : Type} (env : LModel D)
    (reports : List CommunityReport) (enc enc' : Option Encoding)
    (draw : Nat) (query : String) (rs : List CommunityReport) :
    PrimerQueryProcessor.expand_query env ⟨reports, enc⟩ draw query
      = PrimerQueryProcessor.expand_query env ⟨reports, enc'⟩ draw query ∧
    (PrimerQueryProcessor.expand_query env ⟨reports, enc⟩ draw query).map
        (fun p => p.snd)
      = (secrets_choice reports draw).map (fun rpt =>
          env.num_tokens
            (env.generate (expandPrompt query rpt.full_content) ++ query) none) ∧
    (DRIFTPrimer.decompose_query env enc query rs).toOption.map (fun p => p.snd)
      = (env.json_loads
            (env.agenerate (DRIFT_PRIMER_PROMPT_format query (foldContext rs)))).map
          (fun _ =>
            env.num_tokens
              (DRIFT_PRIMER_PROMPT_format query (foldContext rs)
                ++ env.agenerate (DRIFT_PRIMER_PROMPT_format query (foldContext rs)))
              enc) := by
  refine ⟨rfl, ?_, ?_⟩
  · simp only [PrimerQueryProcessor.expand_query]
    cases h : secrets_choice reports draw with
    | none => simp [h]
    | some rpt =>
      by_cases he : env.generate (expandPrompt query rpt.full_content) = "" <;>
        simp [h, he]
  · simp only [DRIFTPrimer.decompose_query]
    cases h : env.json_loads
        (env.agenerate (DRIFT_PRIMER_PROMPT_format query (foldContext rs))) <;>
      simp [h, Except.toOption]

/-- C2, counterexample: for a corpus of 1 report and 2 folds (`k > n`),
the fold that is empty is the leading one, not a trailing one: the folds
are `[[], [r]]`, so the last fold is nonempty while fold 0 is empty. -/
theorem split_reports_trailing_cex :
    [sampleReport].length < 2 ∧
    DRIFTPrimer.split_reports ⟨⟨2⟩, none⟩ [sampleReport] = [[], [sampleReport]] ∧
    (DRIFTPrimer.split_reports ⟨⟨2⟩, none⟩ [sampleReport]).getLast? ≠ some [] ∧
    (DRIFTPrimer.split_reports ⟨⟨2⟩, none⟩ [sampleReport]).getD 0 [] = [] := by
  decide

/-- C2 (amended): for every corpus and every `k ≥ 1`, `split_reports`
returns exactly `k` folds; fold `i` is the contiguous half-open index
range `[i*n//k, (i+1)*n//k)` (whose boundaries are monotone, so the folds
are pairwise disjoint and in ascending index order, and the last fold
ends at `n`); their concatenation covers the corpus exactly once; a fold
with `start == end` is empty; and when `k > n` empty folds occur but at
the leading positions (fold 0 is empty), not necessarily trailing. -/
theorem split_reports_partition (reports : List CommunityReport)
    (enc : Option Encoding) (k i : Nat) (hk : 1 ≤ k) (hi : i < k) :
    (DRIFTPrimer.split_reports ⟨⟨k⟩, enc⟩ reports).length = k ∧
    (DRIFTPrimer.split_reports ⟨⟨k⟩, enc⟩ reports).getD i []
      = (reports.drop (i * reports.length / k)).take
          ((i + 1) * reports.length / k - i * reports.length / k) ∧
    i * reports.length / k ≤ (i + 1) * reports.length / k ∧
    (k - 1 + 1) * reports.length / k = reports.length ∧
    (DRIFTPrimer.split_reports ⟨⟨k⟩, enc⟩ reports).flatten = reports ∧
    (i * reports.length / k = (i + 1) * reports.length / k →
      (DRIFTPrimer.split_reports ⟨⟨k⟩, enc⟩ reports).getD i [] = []) ∧
    (reports.length < k →
      (DRIFTPrimer.split_reports ⟨⟨k⟩, enc⟩ reports).getD 0 [] = []) := by
  refine ⟨split_reports_length k hk enc reports,
    split_reports_getD k hk enc reports i hi,
    Nat.div_le_div_right (Nat.mul_le_mul_right _ (Nat.le_succ i)),
    ?_, split_reports_flatten k hk enc reports, ?_, ?_⟩
  · rw [show k - 1 + 1 = k from by omega]
    exact Nat.mul_div_cancel_left _ (by omega)
  · intro heq
    rw [split_reports_getD k hk enc reports i hi, heq]
    simp
  · intro hn
    rw [split_reports_getD k hk enc reports 0 (by omega)]
    simp [Nat.div_eq_of_lt hn]

/-- C2, witness: the amended partition statement at a corpus of 1 report,
2 folds, fold index 1. -/
theorem split_reports_partition_wit :
    (DRIFTPrimer.split_reports ⟨⟨2⟩, none⟩ [sampleReport]).length = 2 ∧
    (DRIFTPrimer.split_reports ⟨⟨2⟩, none⟩ [sampleReport]).getD 1 []
      = ([sampleReport].drop (1 * [sampleReport].length / 2)).take
          ((1 + 1) * [sampleReport].length / 2 - 1 * [sampleReport].length / 2) ∧
    1 * [sampleReport].length / 2 ≤ (1 + 1) * [sampleReport].length / 2 ∧
    (2 - 1 + 1) * [sampleReport].length / 2 = [sampleReport].length ∧
    (DRIFTPrimer.split_reports ⟨⟨2⟩, none⟩ [sampleReport]).flatten = [sampleReport] ∧
    (1 * [sampleReport].length / 2 = (1 + 1) * [sampleReport].length / 2 →
      (DRIFTPrimer.split_reports ⟨⟨2⟩, none⟩ [sampleReport]).getD 1 [] = []) ∧
    ([sampleReport].length < 2 →
      (DRIFTPrimer.split_reports ⟨⟨2⟩, none⟩ [sampleReport]).getD 0 [] = []) :=
  split_reports_partition [sampleReport] none 2 1 (by decide) (by decide)

/-- C3: for every corpus and every `k ≥ 1`, any two fold sizes produced
by `split_reports` differ by at most 1, i.e.
`max(foldSize) - min(foldSize) ≤ 1`. -/
theorem split_reports_balance (reports : List CommunityReport)
    (enc : Option Encoding) (k a b : Nat) (hk : 1 ≤ k)
    (ha : a ∈ (DRIFTPrimer.split_reports ⟨⟨k⟩, enc⟩ reports).map List.length)
    (hb : b ∈ (DRIFTPrimer.split_reports ⟨⟨k⟩, enc⟩ reports).map List.length) :
    a - b ≤ 1 := by
  have h1 := split_reports_size_mem k hk enc reports a ha
  have h2 := split_reports_size_mem k hk enc reports b hb
  omega

/-- C3, witness: the size balance at a corpus of 1 report split into 2
folds (sizes 1 and 0). -/
theorem split_reports_balance_wit :
    ((DRIFTPrimer.split_reports ⟨⟨2⟩, none⟩ [sampleReport]).map List.length).getD 1 0
      - ((DRIFTPrimer.split_reports ⟨⟨2⟩, none⟩ [sampleReport]).map
          List.length).getD 0 0 ≤ 1 :=
  split_reports_balance [sampleReport] none 2
    (((DRIFTPrimer.split_reports ⟨⟨2⟩, none⟩ [sampleReport]).map List.length).getD 1 0)
    (((DRIFTPrimer.split_reports ⟨⟨2⟩, none⟩ [sampleReport]).map List.length).getD 0 0)
    (by decide) (by decide) (by decide)

/-- C4: for every completion order (any schedule under which all tasks
complete), the `response` list of the `SearchResult` returned by `asearch`
preserves fold-creation order: its `i`-th element is the
`DecomposedResponse` of the `i`-th fold. -/
theorem asearch_preserves_fold_order {D : Type} (env : LModel D)
    (self : DRIFTPrimer) (query : String) (reports : List CommunityReport)
    (sched : List Nat) (resp : Nat → D) (tok : Nat → Nat)
    (hc : CompleteSched sched (self.split_reports reports).length)
    (hdec : ∀ i, i < (self.split_reports reports).length →
      DRIFTPrimer.decompose_query env self.token_encoder query
          ((self.split_reports reports).getD i [])
        = .ok (resp i, tok i)) :
    (DRIFTPrimer.asearch env self query reports sched).map SearchResult.response
      = .ok ((List.range (self.split_reports reports).length).map resp) := by
  rw [asearch_ok_pointwise env self query reports sched resp tok hc hdec]
  rfl

/-- C4, witness: a 2-fold search whose tasks complete out of order
(schedule `[1, 0]`) still lists fold 0's response first. -/
theorem asearch_preserves_fold_order_wit :
    (DRIFTPrimer.asearch emptyGenEnv ⟨⟨2⟩, none⟩ "q" [] [1, 0]).map
        SearchResult.response
      = .ok ((List.range (DRIFTPrimer.split_reports ⟨⟨2⟩, none⟩ []).length).map
          (fun _ => 7)) :=
  asearch_preserves_fold_order emptyGenEnv ⟨⟨2⟩, none⟩ "q" [] [1, 0]
    (fun _ => 7) (fun _ => sampleTok) (by decide) (by decide)

/-- C5: if any fold's structured response fails to decode, the failure is
not caught locally: `asearch` fails for the whole call and no
`SearchResult` is produced. -/
theorem asearch_decode_failure {D : Type} (env : LModel D) (self : DRIFTPrimer)
    (query : String) (reports : List CommunityReport) (sched : List Nat)
    (j : Nat)
    (hc : CompleteSched sched (self.split_reports reports).length)
    (hj : j < (self.split_reports reports).length)
    (hfail : env.json_loads (env.agenerate (DRIFT_PRIMER_PROMPT_format query
        (foldContext ((self.split_reports reports).getD j [])))) = none) :
    (DRIFTPrimer.asearch env self query reports sched).isOk = false := by
  have hgetD : (self.split_reports reports).getD j []
      = (self.split_reports reports)[j] := by
    rw [List.getD_eq_getElem?_getD, List.getElem?_eq_getElem hj]
    rfl
  have hdecomp : DRIFTPrimer.decompose_query env self.token_encoder query
      ((self.split_reports reports)[j])
      = .error (env.agenerate (DRIFT_PRIMER_PROMPT_format query
          (foldContext ((self.split_reports reports)[j])))) := by
    rw [← hgetD]
    simp only [DRIFTPrimer.decompose_query, hfail]
  have hmem : Except.error (env.agenerate (DRIFT_PRIMER_PROMPT_format query
        (foldContext ((self.split_reports reports)[j]))))
      ∈ (self.split_reports reports).map
          (fun fold => DRIFTPrimer.decompose_query env self.token_encoder query fold) := by
    rw [← hdecomp]
    exact List.mem_map_of_mem _ (List.getElem_mem hj)
  simp only [DRIFTPrimer.asearch]
  rw [gather_complete _ _ _ (by rw [List.length_map]; exact hc)]
  obtain ⟨e', he'⟩ := sequenceE_error_of_mem hmem
  rw [he']
  rfl

/-- C5, witness: a single-fold search whose response does not decode
fails as a whole. -/
theorem asearch_decode_failure_wit :
    (DRIFTPrimer.asearch badJsonEnv ⟨⟨1⟩, none⟩ "q" [sampleReport] [0]).isOk
      = false :=
  asearch_decode_failure badJsonEnv ⟨⟨1⟩, none⟩ "q" [sampleReport] [0] 0
    (by decide) (by decide) (by decide)

/-- C6: an empty fold is not an error — its context block (the blank-line
join of zero report contents) is the empty string — and on a corpus of 0
reports with `primer_folds = 2`, `asearch` completes without raising with
a 2-entry response list, both entries derived from the empty-context
prompt. -/
theorem asearch_empty_corpus {D : Type} (env : LModel D) (enc : Option Encoding)
    (query : String) (sched : List Nat) (d : D)
    (hc : CompleteSched sched 2)
    (hparse : env.json_loads (env.agenerate (DRIFT_PRIMER_PROMPT_format query ""))
      = some d) :
    foldContext [] = "" ∧
    (DRIFTPrimer.asearch env ⟨⟨2⟩, enc⟩ query [] sched).map
        (fun r => r.response)
      = .ok [d, d] := by
  constructor
  · rfl
  · have hctx : ("\n\n".intercalate ([] : List String) : String) = "" := rfl
    have hdec : DRIFTPrimer.decompose_query env enc query [] = .ok (d,
        env.num_tokens (DRIFT_PRIMER_PROMPT_format query ""
          ++ env.agenerate (DRIFT_PRIMER_PROMPT_format query "")) enc) := by
      simp only [DRIFTPrimer.decompose_query, foldContext, List.map_nil, hctx]
      rw [hparse]
    have hsplit : DRIFTPrimer.split_reports ⟨⟨2⟩, enc⟩ ([] : List CommunityReport)
        = [[], []] := by
      simp [DRIFTPrimer.split_reports, List.range_succ]
    have hres : (DRIFTPrimer.split_reports ⟨⟨2⟩, enc⟩ ([] : List CommunityReport)).map
        (fun fold => DRIFTPrimer.decompose_query env enc query fold)
      = ([(d, env.num_tokens (DRIFT_PRIMER_PROMPT_format query ""
            ++ env.agenerate (DRIFT_PRIMER_PROMPT_format query "")) enc),
          (d, env.num_tokens (DRIFT_PRIMER_PROMPT_format query ""
            ++ env.agenerate (DRIFT_PRIMER_PROMPT_format query "")) enc)]).map
          Except.ok := by
      rw [hsplit]
      simp only [List.map_cons, List.map_nil]
      rw [hdec]
    have h := asearch_ok env ⟨⟨2⟩, enc⟩ query [] sched
      [(d, env.num_tokens (DRIFT_PRIMER_PROMPT_format query ""
          ++ env.agenerate (DRIFT_PRIMER_PROMPT_format query "")) enc),
       (d, env.num_tokens (DRIFT_PRIMER_PROMPT_format query ""
          ++ env.agenerate (DRIFT_PRIMER_PROMPT_format query "")) enc)]
      (by rw [hsplit]; exact hc) hres
    rw [h]
    rfl

/-- C6, witness: the empty-corpus two-fold search at the concrete
environment. -/
theorem asearch_empty_corpus_wit :
    foldContext [] = "" ∧
    (DRIFTPrimer.asearch emptyGenEnv ⟨⟨2⟩, none⟩ "q" [] [0, 1]).map
        (fun r => r.response)
      = .ok [7, 7] :=
  asearch_empty_corpus emptyGenEnv none "q" [0, 1] 7 (by decide) (by decide)

/-- C7: the `prompt_tokens` of the `SearchResult` returned by `asearch`
equals the exact sum of the token counts reported by the per-fold
decomposition calls, and `llm_calls` equals 2 independent of the fold
count. -/
theorem asearch_token_accounting {D : Type} (env : LModel D)
    (self : DRIFTPrimer) (query : String) (reports : List CommunityReport)
    (sched : List Nat) (resp : Nat → D) (tok : Nat → Nat)
    (hc : CompleteSched sched (self.split_reports reports).length)
    (hdec : ∀ i, i < (self.split_reports reports).length →
      DRIFTPrimer.decompose_query env self.token_encoder query
          ((self.split_reports reports).getD i [])
        = .ok (resp i, tok i)) :
    (DRIFTPrimer.asearch env self query reports sched).map
        (fun r => (r.prompt_tokens, r.llm_calls))
      = .ok (((List.range (self.split_reports reports).length).map tok).sum, 2) := by
  rw [asearch_ok_pointwise env self query reports sched resp tok hc hdec]
  rfl

/-- C7, witness: token aggregation and fixed call accounting at the
concrete 2-fold search. -/
theorem asearch_token_accounting_wit :
    (DRIFTPrimer.asearch emptyGenEnv ⟨⟨2⟩, none⟩ "q" [] [1, 0]).map
        (fun r => (r.prompt_tokens, r.llm_calls))
      = .ok (((List.range (DRIFTPrimer.split_reports ⟨⟨2⟩, none⟩ []).length).map
          (fun _ => sampleTok)).sum, 2) :=
  asearch_token_accounting emptyGenEnv ⟨⟨2⟩, none⟩ "q" [] [1, 0]
    (fun _ => 7) (fun _ => sampleTok) (by decide) (by decide)

end DriftPrimer
